import Mathlib

/-!
Shallow embedding of the slowtris core (src/main.py): shape table, piece,
grid, and the step-based game controller.  Python integers become `Int`,
Python lists become `List`, grid cells are `String`s (`""` = empty, as in
the source, where truthiness of the cell string is what `piece_fits`
tests).  The controller's use of `random.choice` for the next piece is
parameterized by the chosen `Shape`.  Writes `self.grid[y][x] = v` use
Python list-index semantics (negative indices wrap once by the length; a
still-out-of-range index raises `IndexError`), modelled by `Option`.
-/

namespace Slowtris

/-- The seven tetromino kinds, the keys of the `shapes` dict in main.py. -/
inductive Shape where
  | O | I | J | L | T | Z | S
deriving DecidableEq

/-- The string stored into a grid cell by `place_piece` (`piece.shape`). -/
def shapeName : Shape → String
  | .O => "O"
  | .I => "I"
  | .J => "J"
  | .L => "L"
  | .T => "T"
  | .Z => "Z"
  | .S => "S"

/-- The `shapes` dict of main.py: for each kind, the 4 rotation states,
each a 4-character hex string of cell codes in a 4x4 bounding box. -/
def shapes : Shape → List String
  | .O => ["56a9", "6a95", "a956", "956a"]
  | .I => ["4567", "26ae", "ba98", "d951"]
  | .J => ["0456", "2159", "a654", "8951"]
  | .L => ["2654", "a951", "8456", "0159"]
  | .T => ["1456", "6159", "9654", "4951"]
  | .Z => ["0156", "2659", "a954", "8451"]
  | .S => ["1254", "a651", "8956", "0459"]

/-- `int(char, 16)` for the lowercase hex digits used in the shape table. -/
def hexVal (c : Char) : Nat :=
  if c.isDigit then c.toNat - 48 else c.toNat - 87

/-- `y, x = divmod(int(char, 16), 4)`: local (row, column) of one cell. -/
def decodeChar (c : Char) : Nat × Nat :=
  (hexVal c / 4, hexVal c % 4)

/-- `TetrisPiece`: a shape kind plus position and rotation index. -/
@[ext]
structure TetrisPiece where
  shape : Shape
  x : Int
  y : Int
  rot : Int
deriving DecidableEq

/-- `TetrisPiece.move(dx, dy, drot)`: add the deltas; the rotation is
taken modulo 4 (Python `%`, i.e. mathematical modulo for modulus 4). -/
def TetrisPiece.move (p : TetrisPiece) (dx dy drot : Int) : TetrisPiece :=
  { p with x := p.x + dx, y := p.y + dy, rot := (p.rot + drot) % 4 }

/-- The decoded local (row, column) offsets of rotation state `m` of
shape `s`: `shapes[shape][m]` decoded character by character. -/
def localCellsAux (s : Shape) (m : Nat) : List (Nat × Nat) :=
  (((shapes s).getD m "").data).map decodeChar

/-- `TetrisPiece.get_blocks`: for each `char` of
`shapes[self.shape][self.rot % 4]`, with `y, x = divmod(int(char,16), 4)`,
yield `(self.x + x, self.y - y)`. -/
def get_blocks (p : TetrisPiece) : List (Int × Int) :=
  (localCellsAux p.shape ((p.rot % 4).toNat)).map
    (fun q => (p.x + (q.2 : Int), p.y - (q.1 : Int)))

/-- `TetrisGrid`: fixed dimensions plus the cell matrix (row-major,
row 0 on top, each cell a string, `""` meaning empty). -/
@[ext]
structure Grid where
  width : Int
  height : Int
  grid : List (List String)
deriving DecidableEq

/-- `TetrisGrid.__init__(width, height)`: stores the dimensions and builds
`[[''] * width for _ in range(height)]` (a negative count yields an empty
list, as in Python).  No validation is performed. -/
def mkGrid (w h : Int) : Grid :=
  { width := w, height := h
    grid := List.replicate h.toNat (List.replicate w.toNat "") }

/-- `self.grid[y][x]` for already bounds-checked non-negative `x`, `y`. -/
def cellAt (g : Grid) (x y : Int) : String :=
  (g.grid.getD y.toNat []).getD x.toNat ""

/-- `TetrisGrid.piece_fits(piece)`: every block must satisfy
`0 <= x < width`, `0 <= y < height`, and the grid cell must be falsy
(the empty string). -/
def piece_fits (g : Grid) (p : TetrisPiece) : Bool :=
  (get_blocks p).all fun c =>
    decide (0 ≤ c.1) && decide (c.1 < g.width) &&
    decide (0 ≤ c.2) && decide (c.2 < g.height) &&
    (cellAt g c.1 c.2 == "")

/-- Python list indexing: a negative index counts from the end; the
result is `none` (an `IndexError`) when still out of range. -/
def pyIdx (n : Nat) (i : Int) : Option Nat :=
  let j := if i < 0 then i + n else i
  if 0 ≤ j ∧ j < (n : Int) then some j.toNat else none

/-- One assignment `rows[y][x] = v` with Python index semantics. -/
def setCell (rows : List (List String)) (x y : Int) (v : String) :
    Option (List (List String)) :=
  match pyIdx rows.length y with
  | none => none
  | some j =>
    let row := rows.getD j []
    match pyIdx row.length x with
    | none => none
    | some i => some (rows.set j (row.set i v))

/-- `TetrisGrid.place_piece(piece)`: write `piece.shape` into the cell at
each block, in order; `none` models the `IndexError` Python would raise
on an out-of-range write.  No fit check is performed. -/
def place_piece (g : Grid) (p : TetrisPiece) : Option Grid :=
  ((get_blocks p).foldl
      (fun acc c => acc.bind fun rows => setCell rows c.1 c.2 (shapeName p.shape))
      (some g.grid)).map
    fun rows => { g with grid := rows }

/-- `TetrisGrid.clear_full_rows()`: keep the rows having some empty cell,
count `cleared = self.height - len(remaining)`, and prepend that many
fresh empty rows.  Returns (cleared count, new grid); the filter and the
count both read the single pre-clear grid. -/
def clear_full_rows (g : Grid) : Int × Grid :=
  let remaining := g.grid.filter fun row => row.any fun cell => cell == ""
  let cleared : Int := g.height - remaining.length
  (cleared,
   { g with grid :=
      List.replicate cleared.toNat (List.replicate g.width.toNat "") ++ remaining })

/-- The controller state: current grid, current piece, score. -/
@[ext]
structure State where
  grid : Grid
  piece : TetrisPiece
  score : Int
deriving DecidableEq

/-- `get_next_piece`: a piece of the (randomly chosen, here parameterized)
kind `k` at `x=4, y=1`, rotation 0. -/
def get_next_piece (k : Shape) : TetrisPiece :=
  { shape := k, x := 4, y := 1, rot := 0 }

/-- `update_score(cleared_rows)`: add `cleared_rows * 100` to the score. -/
def update_score (score cleared : Int) : Int :=
  score + cleared * 100

/-- The shared lock sequence of `step_down` and `drop_piece`: place the
current piece, clear full rows, add `cleared * 100` to the score, and
spawn the next piece (of kind `k`). -/
def lockPiece (s : State) (k : Shape) : Option State :=
  (place_piece s.grid s.piece).map fun g1 =>
    let res := clear_full_rows g1
    { grid := res.2, piece := get_next_piece k, score := update_score s.score res.1 }

/-- `move_left`: `move(dx=-1)`, undone by `move(dx=1)` when the result
does not fit.  Only the piece is touched. -/
def move_left (s : State) : State :=
  let p1 := TetrisPiece.move s.piece (-1) 0 0
  if piece_fits s.grid p1 then { s with piece := p1 }
  else { s with piece := TetrisPiece.move p1 1 0 0 }

/-- `move_right`: `move(dx=1)`, undone by `move(dx=-1)` on a misfit. -/
def move_right (s : State) : State :=
  let p1 := TetrisPiece.move s.piece 1 0 0
  if piece_fits s.grid p1 then { s with piece := p1 }
  else { s with piece := TetrisPiece.move p1 (-1) 0 0 }

/-- `rotate_piece`: `move(drot=1)`, undone by `move(drot=-1)` on a misfit. -/
def rotate_piece (s : State) : State :=
  let p1 := TetrisPiece.move s.piece 0 0 1
  if piece_fits s.grid p1 then { s with piece := p1 }
  else { s with piece := TetrisPiece.move p1 0 0 (-1) }

/-- `step_down`: `move(dy=1)`; if the result fits the piece simply moved
down, otherwise the move is undone and the lock sequence runs. -/
def step_down (s : State) (k : Shape) : Option State :=
  let p1 := TetrisPiece.move s.piece 0 1 0
  if piece_fits s.grid p1 then some { s with piece := p1 }
  else lockPiece { s with piece := TetrisPiece.move p1 0 (-1) 0 } k

/-- The `while self.grid.piece_fits(self.piece): self.piece.move(dy=1)`
loop of `drop_piece`, with explicit fuel. -/
def dropN (g : Grid) : TetrisPiece → Nat → TetrisPiece
  | p, 0 => p
  | p, n + 1 => if piece_fits g p then dropN g (TetrisPiece.move p 0 1 0) n else p

/-- Fuel that provably suffices for the drop loop: once the piece's `y`
exceeds `height + 3`, every block is below the grid and the fit fails. -/
def dropFuel (g : Grid) (p : TetrisPiece) : Nat :=
  (g.height + 4 - p.y).toNat + 1

/-- The piece `drop_piece` hands to `place_piece`: the loop's first
non-fitting position moved back up by `move(dy=-1)`. -/
def dropTarget (g : Grid) (p : TetrisPiece) : TetrisPiece :=
  TetrisPiece.move (dropN g p (dropFuel g p)) 0 (-1) 0

/-- `drop_piece`: run the descent loop, undo the last (failing) move,
then run the same lock sequence as `step_down`. -/
def drop_piece (s : State) (k : Shape) : Option State :=
  lockPiece { s with piece := dropTarget s.grid s.piece } k

/-- Calling `step_down` repeatedly until the call that locks the piece:
while the moved-down piece fits, `step_down` returns exactly the
moved-down state and we recurse on it; the first time it does not fit,
that very `step_down` call performs the lock. -/
def stepDownUntilLock (k : Shape) : Nat → State → Option State
  | 0, _ => none
  | n + 1, s =>
    if piece_fits s.grid (TetrisPiece.move s.piece 0 1 0)
    then stepDownUntilLock k n { s with piece := TetrisPiece.move s.piece 0 1 0 }
    else step_down s k

/-- `reset_game`: a fresh default `TetrisGrid()` (10x16), a fresh piece
of kind `k`, score 0. -/
def reset_game (k : Shape) : State :=
  { grid := mkGrid 10 16, piece := get_next_piece k, score := 0 }

/-- The data-model invariant of the grid: exactly `height` rows, each of
exactly `width` cells. -/
def WF (g : Grid) : Prop :=
  (g.grid.length : Int) = g.height ∧ ∀ row ∈ g.grid, (row.length : Int) = g.width

instance (g : Grid) : Decidable (WF g) := by
  unfold WF; infer_instance

/-- "Full row" as the spec defines it: every cell is non-empty. -/
def isFullRow (row : List String) : Bool :=
  row.all fun cell => !(cell == "")

/-! ### Helper lemmas about the shape table and `get_blocks` -/

theorem localCellsAux_facts (m : Nat) (hm : m < 4) (s : Shape) :
    (localCellsAux s m).length = 4 ∧ (localCellsAux s m).Nodup ∧
      ∀ q ∈ localCellsAux s m, q.1 < 4 ∧ q.2 < 4 := by
  interval_cases m <;> cases s <;> decide

theorem rot_index_lt (r : Int) : (r % 4).toNat < 4 := by omega

theorem get_blocks_length (p : TetrisPiece) : (get_blocks p).length = 4 := by
  have h := localCellsAux_facts ((p.rot % 4).toNat) (rot_index_lt p.rot) p.shape
  simp [get_blocks, h.1]

theorem get_blocks_nodup (p : TetrisPiece) : (get_blocks p).Nodup := by
  have h := localCellsAux_facts ((p.rot % 4).toNat) (rot_index_lt p.rot) p.shape
  refine List.Nodup.map ?_ h.2.1
  intro a b hab
  cases a; cases b
  simp only [Prod.mk.injEq] at hab ⊢
  omega

theorem get_blocks_mem (p : TetrisPiece) (c : Int × Int) (hc : c ∈ get_blocks p) :
    ∃ lx ly : Nat, lx < 4 ∧ ly < 4 ∧ c = (p.x + (lx : Int), p.y - (ly : Int)) := by
  have h := localCellsAux_facts ((p.rot % 4).toNat) (rot_index_lt p.rot) p.shape
  unfold get_blocks at hc
  rcases List.mem_map.1 hc with ⟨q, hq, rfl⟩
  exact ⟨q.2, q.1, (h.2.2 q hq).2, (h.2.2 q hq).1, rfl⟩

theorem get_blocks_rot_emod (sh : Shape) (x y r : Int) :
    get_blocks ⟨sh, x, y, r % 4⟩ = get_blocks ⟨sh, x, y, r⟩ := by
  have h4 : r % 4 % 4 = r % 4 := by omega
  simp [get_blocks, h4]

theorem piece_fits_congr (g : Grid) (p q : TetrisPiece)
    (hb : get_blocks p = get_blocks q) : piece_fits g p = piece_fits g q := by
  simp [piece_fits, hb]

/-- Undoing `move(dy=1)` with `move(dy=-1)` restores the position; the
rotation index is re-normalized modulo 4 on the way (a no-op whenever it
already lies in `[0,4)`). -/
theorem revert_down_eq (p : TetrisPiece) :
    TetrisPiece.move (TetrisPiece.move p 0 1 0) 0 (-1) 0
      = ⟨p.shape, p.x, p.y, p.rot % 4⟩ := by
  apply TetrisPiece.ext <;> simp [TetrisPiece.move]

theorem piece_fits_revert_down (g : Grid) (p : TetrisPiece) :
    piece_fits g (TetrisPiece.move (TetrisPiece.move p 0 1 0) 0 (-1) 0)
      = piece_fits g p := by
  rw [revert_down_eq]
  exact piece_fits_congr g _ p (get_blocks_rot_emod p.shape p.x p.y p.rot)

theorem eta_of_rot_range (p : TetrisPiece) (h0 : 0 ≤ p.rot) (h1 : p.rot < 4) :
    (⟨p.shape, p.x, p.y, p.rot % 4⟩ : TetrisPiece) = p := by
  have h : p.rot % 4 = p.rot := by omega
  rw [h]

/-! ### Helper lemmas about the drop loop -/

theorem fits_y_ub (g : Grid) (p : TetrisPiece) (h : piece_fits g p = true) :
    p.y < g.height + 4 := by
  have hlen := get_blocks_length p
  have hne : get_blocks p ≠ [] := by
    intro hnil; rw [hnil] at hlen; simp at hlen
  obtain ⟨c, hc⟩ := List.exists_mem_of_ne_nil _ hne
  have hall := (List.all_eq_true.mp h) c hc
  simp only [Bool.and_eq_true, decide_eq_true_eq] at hall
  obtain ⟨lx, ly, hlx, hly, hceq⟩ := get_blocks_mem p c hc
  have h2 : c.2 = p.y - (ly : Int) := by rw [hceq]
  have h3 := hall.1.2
  omega

theorem fits_false_far (g : Grid) (p : TetrisPiece) (h : g.height + 4 ≤ p.y) :
    piece_fits g p = false := by
  cases hf : piece_fits g p
  · rfl
  · exact absurd (fits_y_ub g p hf) (by omega)

theorem dropN_of_not_fits (g : Grid) (p : TetrisPiece) (n : Nat)
    (h : piece_fits g p = false) : dropN g p n = p := by
  cases n <;> simp [dropN, h]

theorem dropN_reaches (g : Grid) :
    ∀ (n : Nat) (p : TetrisPiece), (g.height + 4 - p.y) < (n : Int) →
      piece_fits g (dropN g p n) = false := by
  intro n
  induction n with
  | zero =>
      intro p h
      simpa [dropN] using fits_false_far g p (by omega)
  | succ n ih =>
      intro p h
      cases hf : piece_fits g p with
      | false => rw [dropN_of_not_fits g p _ hf]; exact hf
      | true =>
          rw [show dropN g p (n + 1) = dropN g (TetrisPiece.move p 0 1 0) n by
                simp [dropN, hf]]
          apply ih
          have hy : (TetrisPiece.move p 0 1 0).y = p.y + 1 := by
            simp [TetrisPiece.move]
          rw [hy]
          push_cast at h ⊢
          omega

theorem dropFuel_reaches (g : Grid) (p : TetrisPiece) :
    piece_fits g (dropN g p (dropFuel g p)) = false := by
  apply dropN_reaches
  unfold dropFuel
  push_cast
  omega

theorem dropN_back_fits (g : Grid) :
    ∀ (n : Nat) (p : TetrisPiece), piece_fits g p = true →
      piece_fits g (dropN g p n) = false →
      piece_fits g (TetrisPiece.move (dropN g p n) 0 (-1) 0) = true := by
  intro n
  induction n with
  | zero =>
      intro p hp hd
      rw [show dropN g p 0 = p from rfl, hp] at hd
      cases hd
  | succ n ih =>
      intro p hp hd
      have hstep : dropN g p (n + 1) = dropN g (TetrisPiece.move p 0 1 0) n := by
        simp [dropN, hp]
      rw [hstep] at hd ⊢
      cases hf : piece_fits g (TetrisPiece.move p 0 1 0) with
      | true => exact ih _ hf hd
      | false =>
          rw [dropN_of_not_fits g _ n hf, piece_fits_revert_down]
          exact hp

/-- The piece `drop_piece` hands to `place_piece` still fits, provided
the piece fit where the drop started. -/
theorem dropTarget_fits (g : Grid) (p : TetrisPiece)
    (h : piece_fits g p = true) : piece_fits g (dropTarget g p) = true := by
  unfold dropTarget
  exact dropN_back_fits g (dropFuel g p) p h (dropFuel_reaches g p)

/-- When the moved-down piece fits, `step_down` returns exactly the
moved-down state: `stepDownUntilLock`'s recursion is therefore honestly
"call `step_down` again on the state `step_down` just returned". -/
theorem step_down_of_fits (s : State) (k : Shape)
    (h : piece_fits s.grid (TetrisPiece.move s.piece 0 1 0) = true) :
    step_down s k = some { s with piece := TetrisPiece.move s.piece 0 1 0 } := by
  simp [step_down, h]

/-- Iterating `step_down` up to the locking call agrees with locking at
the drop loop's last fitting position, for any sufficient fuel. -/
theorem stepUntilLock_eq (g : Grid) (sc : Int) (k : Shape) :
    ∀ (n : Nat) (p : TetrisPiece), piece_fits g p = true →
      (g.height + 4 - p.y) < (n : Int) →
      stepDownUntilLock k n ⟨g, p, sc⟩
        = lockPiece ⟨g, TetrisPiece.move (dropN g p n) 0 (-1) 0, sc⟩ k := by
  intro n
  induction n with
  | zero =>
      intro p hp h
      exact absurd (fits_y_ub g p hp) (by omega)
  | succ n ih =>
      intro p hp h
      cases hd : piece_fits g (TetrisPiece.move p 0 1 0) with
      | true =>
          have h1 : stepDownUntilLock k (n + 1) ⟨g, p, sc⟩
              = stepDownUntilLock k n ⟨g, TetrisPiece.move p 0 1 0, sc⟩ := by
            simp [stepDownUntilLock, hd]
          have h2 : dropN g p (n + 1) = dropN g (TetrisPiece.move p 0 1 0) n := by
            simp [dropN, hp]
          rw [h1, h2]
          apply ih _ hd
          have hy : (TetrisPiece.move p 0 1 0).y = p.y + 1 := by
            simp [TetrisPiece.move]
          rw [hy]
          push_cast at h ⊢
          omega
      | false =>
          have h1 : stepDownUntilLock k (n + 1) ⟨g, p, sc⟩ = step_down ⟨g, p, sc⟩ k := by
            simp [stepDownUntilLock, hd]
          have h2 : dropN g p (n + 1) = TetrisPiece.move p 0 1 0 := by
            rw [show dropN g p (n + 1) = dropN g (TetrisPiece.move p 0 1 0) n by
                  simp [dropN, hp],
                dropN_of_not_fits g _ n hd]
          rw [h1, h2]
          simp [step_down, hd]

/-! ### Claim theorems -/

/-- Claim C1, counterexample: from the initial state whose randomly
spawned piece is an O (grid empty, default 10x16), the very first
`drop_piece` action invokes `place_piece` on a piece that does not
satisfy `piece_fits`: the descent loop's guard is already false at the
spawn position, the `move(dy=-1)` undo lifts the piece to `y = 0`, and
`drop_piece` (by its definition, `lockPiece` of `dropTarget`) places a
piece two of whose cells have negative `y` (in Python the negative
indices wrap around and write into the bottom rows of the grid). -/
theorem claim_C1_counterexample :
    piece_fits (mkGrid 10 16) (dropTarget (mkGrid 10 16) (get_next_piece Shape.O)) = false ∧
    (get_blocks (dropTarget (mkGrid 10 16) (get_next_piece Shape.O))).any
        (fun c => decide (c.2 < 0)) = true ∧
    drop_piece ⟨mkGrid 10 16, get_next_piece Shape.O, 0⟩ Shape.I
      = lockPiece ⟨mkGrid 10 16, dropTarget (mkGrid 10 16) (get_next_piece Shape.O), 0⟩
          Shape.I := by
  refine ⟨by decide, by decide, rfl⟩

/-- Claim C1 (amended): whenever the current piece fits the grid at the
moment the action starts, the piece handed to `place_piece` satisfies
`piece_fits`: for `step_down` that piece is the down-then-up reverted
piece (same cells as the current piece), for `drop_piece` it is the drop
loop's last fitting position. -/
theorem claim_C1_place_preserves_fit (s : State)
    (h : piece_fits s.grid s.piece = true) :
    piece_fits s.grid
        (TetrisPiece.move (TetrisPiece.move s.piece 0 1 0) 0 (-1) 0) = true ∧
    piece_fits s.grid (dropTarget s.grid s.piece) = true := by
  refine ⟨?_, dropTarget_fits s.grid s.piece h⟩
  rw [piece_fits_revert_down]
  exact h

theorem claim_C1_witness :
    piece_fits (mkGrid 4 5) ⟨Shape.I, 0, 2, 0⟩ = true ∧
    (piece_fits (mkGrid 4 5)
        (TetrisPiece.move (TetrisPiece.move (⟨Shape.I, 0, 2, 0⟩ : TetrisPiece) 0 1 0)
          0 (-1) 0) = true ∧
     piece_fits (mkGrid 4 5) (dropTarget (mkGrid 4 5) ⟨Shape.I, 0, 2, 0⟩) = true) :=
  ⟨by decide, claim_C1_place_preserves_fit ⟨mkGrid 4 5, ⟨Shape.I, 0, 2, 0⟩, 0⟩ (by decide)⟩

/-- Claim C2, counterexample: with the current piece a freshly spawned O
(which does not fit: two cells at `y = -1`) and a single occupied cell at
row 8, column 5, `drop_piece` in one call places the O via Python's
negative-index wraparound into rows 14-15, while iterated `step_down`
first moves the piece down (the moved-down position fits) and eventually
locks it at rows 6-7 above the obstacle: the final grids differ. -/
theorem claim_C2_counterexample :
    drop_piece
        ⟨⟨10, 16, (List.replicate 16 (List.replicate 10 "")).set 8
            ((List.replicate 10 "").set 5 "I")⟩,
         get_next_piece Shape.O, 0⟩ Shape.T
      ≠ stepDownUntilLock Shape.T
          (dropFuel
            ⟨10, 16, (List.replicate 16 (List.replicate 10 "")).set 8
                ((List.replicate 10 "").set 5 "I")⟩
            (get_next_piece Shape.O))
          ⟨⟨10, 16, (List.replicate 16 (List.replicate 10 "")).set 8
              ((List.replicate 10 "").set 5 "I")⟩,
           get_next_piece Shape.O, 0⟩ := by
  decide

/-- Claim C2 (amended): from every starting state whose current piece
fits the grid, one `drop_piece` call produces exactly the same result
(final grid, score — incremented once — and respawned piece) as calling
`step_down` repeatedly until the call that locks the piece. -/
theorem claim_C2_drop_refines_steps (s : State) (k : Shape)
    (h : piece_fits s.grid s.piece = true) :
    drop_piece s k = stepDownUntilLock k (dropFuel s.grid s.piece) s := by
  obtain ⟨g, p, sc⟩ := s
  have hb : (g.height + 4 - p.y) < ((dropFuel g p : Nat) : Int) := by
    unfold dropFuel
    push_cast
    omega
  rw [stepUntilLock_eq g sc k (dropFuel g p) p h hb]
  rfl

theorem keep_pred_eq (row : List String) :
    (row.any fun c => c == "") = !(isFullRow row) := by
  induction row with
  | nil => rfl
  | cons a t ih =>
      simp only [List.any_cons, isFullRow, List.all_cons, Bool.not_and, Bool.not_not]
      rw [show t.any (fun c => c == "") = !(isFullRow t) from ih, isFullRow]

theorem length_filter_not_add (l : List (List String)) :
    (l.filter fun r => !(isFullRow r)).length + (l.filter isFullRow).length
      = l.length := by
  induction l with
  | nil => rfl
  | cons a t ih =>
      cases h : isFullRow a <;> simp [List.filter_cons, h] <;> omega

/-- Claim C3: on a grid of `height` rows with exactly `k` full rows (a
row is full iff every cell is non-empty), `clear_full_rows` returns `k`,
the result again has `height` rows, the top `k` rows are entirely empty,
and the rows below them are the original non-full rows in their original
relative order (the single pre-clear grid is filtered once, so all full
rows are removed simultaneously); with `k = 0` the grid is unchanged. -/
theorem claim_C3_clear_full_rows (g : Grid) (k : Nat)
    (hlen : (g.grid.length : Int) = g.height)
    (hk : g.grid.countP isFullRow = k) :
    (clear_full_rows g).1 = (k : Int) ∧
    ((clear_full_rows g).2.grid.length : Int) = g.height ∧
    (clear_full_rows g).2.grid
      = List.replicate k (List.replicate g.width.toNat "")
          ++ g.grid.filter (fun row => !(isFullRow row)) ∧
    (k = 0 → (clear_full_rows g).2.grid = g.grid ∧ (clear_full_rows g).1 = 0) := by
  have hfe : (g.grid.filter fun row => row.any fun c => c == "")
      = g.grid.filter fun row => !(isFullRow row) := by
    apply List.filter_congr
    intro r _
    exact keep_pred_eq r
  have hcount : (g.grid.filter isFullRow).length = k := by
    rw [← List.countP_eq_length_filter]
    exact hk
  have hsplit := length_filter_not_add g.grid
  have hcl : g.height - ((g.grid.filter fun row => !(isFullRow row)).length : Int)
      = (k : Int) := by
    omega
  have hclN : (g.height - ((g.grid.filter fun row => !(isFullRow row)).length : Int)).toNat
      = k := by omega
  refine ⟨?_, ?_, ?_, ?_⟩
  · simp only [clear_full_rows, hfe]
    exact hcl
  · simp only [clear_full_rows, hfe, List.length_append, List.length_replicate, hclN]
    push_cast at hlen ⊢
    omega
  · simp only [clear_full_rows, hfe, hclN]
  · intro hk0
    subst hk0
    have hall : ∀ r ∈ g.grid, ¬(isFullRow r = true) := List.countP_eq_zero.mp hk
    have hid : (g.grid.filter fun row => !(isFullRow row)) = g.grid := by
      apply List.filter_eq_self.mpr
      intro r hr
      simp [hall r hr]
    constructor
    · simp only [clear_full_rows]
      rw [hfe, hclN]
      simp [hid]
    · simp only [clear_full_rows, hfe]
      omega

theorem claim_C3_witness :
    ((((⟨3, 4, [["I", "I", "I"], ["", "I", ""], ["I", "I", "I"], ["", "", ""]]⟩ :
        Grid).grid.length : Int) = (4 : Int)) ∧
      (⟨3, 4, [["I", "I", "I"], ["", "I", ""], ["I", "I", "I"], ["", "", ""]]⟩ :
        Grid).grid.countP isFullRow = 2) ∧
    (clear_full_rows
        ⟨3, 4, [["I", "I", "I"], ["", "I", ""], ["I", "I", "I"], ["", "", ""]]⟩).1
      = (2 : Int) :=
  ⟨⟨by decide, by decide⟩,
   (claim_C3_clear_full_rows
      ⟨3, 4, [["I", "I", "I"], ["", "I", ""], ["I", "I", "I"], ["", "", ""]]⟩ 2
      (by decide) (by decide)).1⟩

/-- Claim C4: `piece_fits` is true iff every one of the piece's 4 blocks
is inside `[0,width) x [0,height)` and lands on an empty cell, for every
well-formed grid and every piece; the query is a pure function of the
grid and the piece (the embedding is functional, and the source method
only reads `self.grid`). -/
theorem claim_C4_fits_iff (g : Grid) (p : TetrisPiece) (hwf : WF g) :
    (piece_fits g p = true ↔
      ∀ c ∈ get_blocks p, 0 ≤ c.1 ∧ c.1 < g.width ∧ 0 ≤ c.2 ∧ c.2 < g.height ∧
        cellAt g c.1 c.2 = "") ∧
    (get_blocks p).length = 4 := by
  refine ⟨?_, get_blocks_length p⟩
  rw [piece_fits, List.all_eq_true]
  constructor
  · intro h c hc
    have hx := h c hc
    simp only [Bool.and_eq_true, decide_eq_true_eq, beq_iff_eq] at hx
    tauto
  · intro h c hc
    have hx := h c hc
    simp only [Bool.and_eq_true, decide_eq_true_eq, beq_iff_eq]
    tauto

theorem claim_C4_witness :
    WF (mkGrid 10 16) ∧
    ((piece_fits (mkGrid 10 16) (get_next_piece Shape.I) = true ↔
      ∀ c ∈ get_blocks (get_next_piece Shape.I),
        0 ≤ c.1 ∧ c.1 < (mkGrid 10 16).width ∧ 0 ≤ c.2 ∧
          c.2 < (mkGrid 10 16).height ∧ cellAt (mkGrid 10 16) c.1 c.2 = "") ∧
     (get_blocks (get_next_piece Shape.I)).length = 4) :=
  ⟨by decide, claim_C4_fits_iff (mkGrid 10 16) (get_next_piece Shape.I) (by decide)⟩

/-- Claim C5: each `step_down` call has exactly one of two outcomes,
decided by whether the moved-down piece fits: either the piece moves
down one row and nothing else changes, or the move is reverted and the
piece is committed via `place_piece` at its pre-step position, the full
rows are cleared, `cleared * 100` is added to the score (once), and a
new piece is spawned.  The two branches carry contradictory values of
the same `piece_fits` test, so never both and — the committed write
being defined, which the spec's `place` precondition grants — never
neither. -/
theorem claim_C5_step_dichotomy (s : State) (k : Shape)
    (h0 : 0 ≤ s.piece.rot) (h1 : s.piece.rot < 4)
    (hpl : (place_piece s.grid s.piece).isSome = true) :
    (piece_fits s.grid (TetrisPiece.move s.piece 0 1 0) = true ∧
      step_down s k = some { s with piece := TetrisPiece.move s.piece 0 1 0 }) ∨
    (piece_fits s.grid (TetrisPiece.move s.piece 0 1 0) = false ∧
      ∃ g1, place_piece s.grid s.piece = some g1 ∧
        step_down s k
          = some ⟨(clear_full_rows g1).2, get_next_piece k,
                  s.score + (clear_full_rows g1).1 * 100⟩) := by
  cases hd : piece_fits s.grid (TetrisPiece.move s.piece 0 1 0) with
  | true => exact Or.inl ⟨rfl, step_down_of_fits s k hd⟩
  | false =>
      refine Or.inr ⟨rfl, ?_⟩
      obtain ⟨g1, hg1⟩ := Option.isSome_iff_exists.mp hpl
      refine ⟨g1, hg1, ?_⟩
      have hrev : TetrisPiece.move (TetrisPiece.move s.piece 0 1 0) 0 (-1) 0
          = s.piece := by
        rw [revert_down_eq]
        exact eta_of_rot_range s.piece h0 h1
      simp [step_down, hd, hrev, lockPiece, hg1, update_score]

theorem claim_C5_witness :
    (0 ≤ (⟨Shape.I, 4, 16, 0⟩ : TetrisPiece).rot ∧
     (⟨Shape.I, 4, 16, 0⟩ : TetrisPiece).rot < 4 ∧
     (place_piece (mkGrid 10 16) ⟨Shape.I, 4, 16, 0⟩).isSome = true) ∧
    ((piece_fits (mkGrid 10 16)
        (TetrisPiece.move (⟨Shape.I, 4, 16, 0⟩ : TetrisPiece) 0 1 0) = true ∧
      step_down ⟨mkGrid 10 16, ⟨Shape.I, 4, 16, 0⟩, 0⟩ Shape.T
        = some { (⟨mkGrid 10 16, ⟨Shape.I, 4, 16, 0⟩, 0⟩ : State) with
                  piece := TetrisPiece.move (⟨Shape.I, 4, 16, 0⟩ : TetrisPiece) 0 1 0 }) ∨
     (piece_fits (mkGrid 10 16)
        (TetrisPiece.move (⟨Shape.I, 4, 16, 0⟩ : TetrisPiece) 0 1 0) = false ∧
      ∃ g1, place_piece (mkGrid 10 16) ⟨Shape.I, 4, 16, 0⟩ = some g1 ∧
        step_down ⟨mkGrid 10 16, ⟨Shape.I, 4, 16, 0⟩, 0⟩ Shape.T
          = some ⟨(clear_full_rows g1).2, get_next_piece Shape.T,
                  (0 : Int) + (clear_full_rows g1).1 * 100⟩)) :=
  ⟨⟨by decide, by decide, by decide⟩,
   claim_C5_step_dichotomy ⟨mkGrid 10 16, ⟨Shape.I, 4, 16, 0⟩, 0⟩ Shape.T
     (by decide) (by decide) (by decide)⟩

theorem claim_C2_witness :
    piece_fits (mkGrid 4 5) ⟨Shape.I, 0, 2, 0⟩ = true ∧
    drop_piece ⟨mkGrid 4 5, ⟨Shape.I, 0, 2, 0⟩, 0⟩ Shape.T
      = stepDownUntilLock Shape.T (dropFuel (mkGrid 4 5) ⟨Shape.I, 0, 2, 0⟩)
          ⟨mkGrid 4 5, ⟨Shape.I, 0, 2, 0⟩, 0⟩ :=
  ⟨by decide,
   claim_C2_drop_refines_steps ⟨mkGrid 4 5, ⟨Shape.I, 0, 2, 0⟩, 0⟩ Shape.T (by decide)⟩

/-- Claim C6, code evidence: `TetrisGrid.__init__` performs no
validation whatsoever.  Constructing with non-positive dimensions
silently succeeds: width 0 with height 16 yields 16 zero-length rows,
and two negative dimensions yield an empty row list (Python's
`[''] * w` and `range(h)` are empty for non-positive arguments).  The
constructor is a total function — the Python body cannot raise — so no
fail-fast error is surfaced, contradicting the claim. -/
theorem claim_C6_construction_never_fails :
    mkGrid 0 16 = ⟨0, 16, List.replicate 16 []⟩ ∧
    mkGrid (-1) (-1) = ⟨-1, -1, []⟩ ∧
    (mkGrid 0 16).width = 0 ∧ (mkGrid (-1) (-1)).height = -1 := by
  refine ⟨by decide, by decide, by decide, by decide⟩

/-- Claim C7: with all four rotated placements fitting (so no revert
fires), four `rotate_piece` calls return the piece to its original
rotation index and occupied cells — the rotation field travels
`r → (r+1)%4 → … → (r+4)%4 = r` for `r` in `[0,4)` — and the modulo in
`TetrisPiece.move` is mathematical: rotation 0 with `drot = -1` yields
rotation 3. -/
theorem claim_C7_rotation_cycle (s : State)
    (h0 : 0 ≤ s.piece.rot) (h1 : s.piece.rot < 4)
    (hf1 : piece_fits s.grid (TetrisPiece.move s.piece 0 0 1) = true)
    (hf2 : piece_fits s.grid (TetrisPiece.move s.piece 0 0 2) = true)
    (hf3 : piece_fits s.grid (TetrisPiece.move s.piece 0 0 3) = true)
    (hf4 : piece_fits s.grid (TetrisPiece.move s.piece 0 0 4) = true) :
    (rotate_piece (rotate_piece (rotate_piece (rotate_piece s)))).piece = s.piece ∧
    get_blocks (rotate_piece (rotate_piece (rotate_piece (rotate_piece s)))).piece
      = get_blocks s.piece ∧
    ∀ q : TetrisPiece, q.rot = 0 → (TetrisPiece.move q 0 0 (-1)).rot = 3 := by
  have e1 : rotate_piece s = { s with piece := TetrisPiece.move s.piece 0 0 1 } := by
    simp [rotate_piece, hf1]
  have p2eq : TetrisPiece.move (TetrisPiece.move s.piece 0 0 1) 0 0 1
      = TetrisPiece.move s.piece 0 0 2 := by
    apply TetrisPiece.ext <;> simp [TetrisPiece.move] <;> omega
  have e2 : rotate_piece { s with piece := TetrisPiece.move s.piece 0 0 1 }
      = { s with piece := TetrisPiece.move s.piece 0 0 2 } := by
    simp only [rotate_piece, p2eq]
    simp [hf2]
  have p3eq : TetrisPiece.move (TetrisPiece.move s.piece 0 0 2) 0 0 1
      = TetrisPiece.move s.piece 0 0 3 := by
    apply TetrisPiece.ext <;> simp [TetrisPiece.move] <;> omega
  have e3 : rotate_piece { s with piece := TetrisPiece.move s.piece 0 0 2 }
      = { s with piece := TetrisPiece.move s.piece 0 0 3 } := by
    simp only [rotate_piece, p3eq]
    simp [hf3]
  have p4eq : TetrisPiece.move (TetrisPiece.move s.piece 0 0 3) 0 0 1
      = TetrisPiece.move s.piece 0 0 4 := by
    apply TetrisPiece.ext <;> simp [TetrisPiece.move] <;> omega
  have e4 : rotate_piece { s with piece := TetrisPiece.move s.piece 0 0 3 }
      = { s with piece := TetrisPiece.move s.piece 0 0 4 } := by
    simp only [rotate_piece, p4eq]
    simp [hf4]
  have hpe : TetrisPiece.move s.piece 0 0 4 = s.piece := by
    apply TetrisPiece.ext <;> simp [TetrisPiece.move] <;> omega
  have hfinal : rotate_piece (rotate_piece (rotate_piece (rotate_piece s))) = s := by
    rw [e1, e2, e3, e4, hpe]
  refine ⟨by rw [hfinal], by rw [hfinal], ?_⟩
  intro q hq
  simp [TetrisPiece.move, hq]

theorem claim_C7_witness :
    ((0 : Int) ≤ (⟨Shape.T, 4, 8, 0⟩ : TetrisPiece).rot ∧
     (⟨Shape.T, 4, 8, 0⟩ : TetrisPiece).rot < 4 ∧
     piece_fits (mkGrid 10 16) (TetrisPiece.move (⟨Shape.T, 4, 8, 0⟩ : TetrisPiece) 0 0 1) = true ∧
     piece_fits (mkGrid 10 16) (TetrisPiece.move (⟨Shape.T, 4, 8, 0⟩ : TetrisPiece) 0 0 2) = true ∧
     piece_fits (mkGrid 10 16) (TetrisPiece.move (⟨Shape.T, 4, 8, 0⟩ : TetrisPiece) 0 0 3) = true ∧
     piece_fits (mkGrid 10 16) (TetrisPiece.move (⟨Shape.T, 4, 8, 0⟩ : TetrisPiece) 0 0 4) = true) ∧
    ((rotate_piece (rotate_piece (rotate_piece (rotate_piece
        (⟨mkGrid 10 16, ⟨Shape.T, 4, 8, 0⟩, 0⟩ : State))))).piece
        = (⟨Shape.T, 4, 8, 0⟩ : TetrisPiece) ∧
     get_blocks (rotate_piece (rotate_piece (rotate_piece (rotate_piece
        (⟨mkGrid 10 16, ⟨Shape.T, 4, 8, 0⟩, 0⟩ : State))))).piece
        = get_blocks (⟨Shape.T, 4, 8, 0⟩ : TetrisPiece) ∧
     ∀ q : TetrisPiece, q.rot = 0 → (TetrisPiece.move q 0 0 (-1)).rot = 3) :=
  ⟨⟨by decide, by decide, by decide, by decide, by decide, by decide⟩,
   claim_C7_rotation_cycle ⟨mkGrid 10 16, ⟨Shape.T, 4, 8, 0⟩, 0⟩ (by decide) (by decide)
     (by decide) (by decide) (by decide) (by decide)⟩

/-- Claim C8: when the attempted move does not fit, `move_left`,
`move_right`, and `rotate_piece` leave the piece's (x, y, rotation)
exactly unchanged (the undo `move` restores every field, the rotation
because it lies in `[0,4)`), and in every case — fitting or not — these
three operations leave the grid contents and the score untouched. -/
theorem claim_C8_move_frame (s : State) (h0 : 0 ≤ s.piece.rot) (h1 : s.piece.rot < 4) :
    ((piece_fits s.grid (TetrisPiece.move s.piece (-1) 0 0) = false →
        (move_left s).piece = s.piece) ∧
      (move_left s).grid = s.grid ∧ (move_left s).score = s.score) ∧
    ((piece_fits s.grid (TetrisPiece.move s.piece 1 0 0) = false →
        (move_right s).piece = s.piece) ∧
      (move_right s).grid = s.grid ∧ (move_right s).score = s.score) ∧
    ((piece_fits s.grid (TetrisPiece.move s.piece 0 0 1) = false →
        (rotate_piece s).piece = s.piece) ∧
      (rotate_piece s).grid = s.grid ∧ (rotate_piece s).score = s.score) := by
  refine ⟨⟨?_, ?_, ?_⟩, ⟨?_, ?_, ?_⟩, ⟨?_, ?_, ?_⟩⟩
  · intro h
    simp only [move_left, h, if_false]
    apply TetrisPiece.ext <;> simp [TetrisPiece.move] <;> omega
  · by_cases h : piece_fits s.grid (TetrisPiece.move s.piece (-1) 0 0) <;>
      simp [move_left, h]
  · by_cases h : piece_fits s.grid (TetrisPiece.move s.piece (-1) 0 0) <;>
      simp [move_left, h]
  · intro h
    simp only [move_right, h, if_false]
    apply TetrisPiece.ext <;> simp [TetrisPiece.move] <;> omega
  · by_cases h : piece_fits s.grid (TetrisPiece.move s.piece 1 0 0) <;>
      simp [move_right, h]
  · by_cases h : piece_fits s.grid (TetrisPiece.move s.piece 1 0 0) <;>
      simp [move_right, h]
  · intro h
    simp only [rotate_piece, h, if_false]
    apply TetrisPiece.ext <;> simp [TetrisPiece.move] <;> omega
  · by_cases h : piece_fits s.grid (TetrisPiece.move s.piece 0 0 1) <;>
      simp [rotate_piece, h]
  · by_cases h : piece_fits s.grid (TetrisPiece.move s.piece 0 0 1) <;>
      simp [rotate_piece, h]

theorem claim_C8_witness :
    ((0 : Int) ≤ (⟨Shape.I, 4, 5, 0⟩ : TetrisPiece).rot ∧
     (⟨Shape.I, 4, 5, 0⟩ : TetrisPiece).rot < 4) ∧
    (((piece_fits (mkGrid 10 16)
          (TetrisPiece.move (⟨Shape.I, 4, 5, 0⟩ : TetrisPiece) (-1) 0 0) = false →
        (move_left ⟨mkGrid 10 16, ⟨Shape.I, 4, 5, 0⟩, 0⟩).piece
          = (⟨Shape.I, 4, 5, 0⟩ : TetrisPiece)) ∧
      (move_left ⟨mkGrid 10 16, ⟨Shape.I, 4, 5, 0⟩, 0⟩).grid = mkGrid 10 16 ∧
      (move_left ⟨mkGrid 10 16, ⟨Shape.I, 4, 5, 0⟩, 0⟩).score = 0) ∧
     ((piece_fits (mkGrid 10 16)
          (TetrisPiece.move (⟨Shape.I, 4, 5, 0⟩ : TetrisPiece) 1 0 0) = false →
        (move_right ⟨mkGrid 10 16, ⟨Shape.I, 4, 5, 0⟩, 0⟩).piece
          = (⟨Shape.I, 4, 5, 0⟩ : TetrisPiece)) ∧
      (move_right ⟨mkGrid 10 16, ⟨Shape.I, 4, 5, 0⟩, 0⟩).grid = mkGrid 10 16 ∧
      (move_right ⟨mkGrid 10 16, ⟨Shape.I, 4, 5, 0⟩, 0⟩).score = 0) ∧
     ((piece_fits (mkGrid 10 16)
          (TetrisPiece.move (⟨Shape.I, 4, 5, 0⟩ : TetrisPiece) 0 0 1) = false →
        (rotate_piece ⟨mkGrid 10 16, ⟨Shape.I, 4, 5, 0⟩, 0⟩).piece
          = (⟨Shape.I, 4, 5, 0⟩ : TetrisPiece)) ∧
      (rotate_piece ⟨mkGrid 10 16, ⟨Shape.I, 4, 5, 0⟩, 0⟩).grid = mkGrid 10 16 ∧
      (rotate_piece ⟨mkGrid 10 16, ⟨Shape.I, 4, 5, 0⟩, 0⟩).score = 0)) :=
  ⟨⟨by decide, by decide⟩,
   claim_C8_move_frame ⟨mkGrid 10 16, ⟨Shape.I, 4, 5, 0⟩, 0⟩ (by decide) (by decide)⟩

/-- Claim C9: for every piece (any of the 7 kinds, any rotation index,
any position), `get_blocks` is a pure, finite, restartable enumeration —
a 4-element list — of pairwise-distinct cells, each of the form
`(x + localX, y - localY)` with `localX, localY` in `[0,4)`. -/
theorem claim_C9_blocks (p : TetrisPiece) :
    (get_blocks p).length = 4 ∧ (get_blocks p).Nodup ∧
    ∀ c ∈ get_blocks p, ∃ lx ly : Nat, lx < 4 ∧ ly < 4 ∧
      c = (p.x + (lx : Int), p.y - (ly : Int)) :=
  ⟨get_blocks_length p, get_blocks_nodup p, fun c hc => get_blocks_mem p c hc⟩

/-- Claim C10: a freshly spawned O piece occupies
`[(5,0), (6,0), (6,-1), (5,-1)]` — two cells at grid row `-1`, because
the O's rotation-0 offsets use local rows 1 and 2 while spawning puts
the piece at `y = 1` — so `piece_fits` rejects it even on the empty
default 10x16 grid; consequently the first `move_left`, `move_right`, or
`rotate_piece` on that state is a silent no-op, while the other six
kinds fit at spawn on the empty grid. -/
theorem claim_C10_O_spawn_misfit :
    get_blocks (get_next_piece Shape.O) = [(5, 0), (6, 0), (6, -1), (5, -1)] ∧
    piece_fits (mkGrid 10 16) (get_next_piece Shape.O) = false ∧
    move_left ⟨mkGrid 10 16, get_next_piece Shape.O, 0⟩
      = ⟨mkGrid 10 16, get_next_piece Shape.O, 0⟩ ∧
    move_right ⟨mkGrid 10 16, get_next_piece Shape.O, 0⟩
      = ⟨mkGrid 10 16, get_next_piece Shape.O, 0⟩ ∧
    rotate_piece ⟨mkGrid 10 16, get_next_piece Shape.O, 0⟩
      = ⟨mkGrid 10 16, get_next_piece Shape.O, 0⟩ ∧
    piece_fits (mkGrid 10 16) (get_next_piece Shape.I) = true ∧
    piece_fits (mkGrid 10 16) (get_next_piece Shape.J) = true ∧
    piece_fits (mkGrid 10 16) (get_next_piece Shape.L) = true ∧
    piece_fits (mkGrid 10 16) (get_next_piece Shape.T) = true ∧
    piece_fits (mkGrid 10 16) (get_next_piece Shape.Z) = true ∧
    piece_fits (mkGrid 10 16) (get_next_piece Shape.S) = true := by
  decide

end Slowtris
